import Mathlib

/-!
# DeTrash-API: verification of the forms workflow

Shallow embedding of `src/services/forms.service.ts` (the canonical
implementation; a near-duplicate exists elsewhere in the repository).
Persistence (`PrismaService`) is modelled as explicit state: lists of
users, forms and documents, plus a log of every call made to the
storage gateway (`S3Service.createPreSignedObjectUrl`).  Collaborators
whose sources are not part of the repository snapshot (UsersService,
S3Service, DocumentsService, `getResidueTitle`, the GraphQL input
class, the JS `URL` builtin) are modelled from the spec's collaborator
contracts; each such definition carries a doc comment saying so.
JavaScript floats are modelled as rationals (`ℚ`); JS string
truthiness (`''`, `null`, `undefined` are falsy) is modelled
explicitly.
-/

/-- `ResidueType` enum from `src/http/graphql/entities/form.entity.ts` /
`document.entity.ts`: GLASS, METAL, ORGANIC, PAPER, PLASTIC. -/
inductive ResidueType
  | GLASS
  | METAL
  | ORGANIC
  | PAPER
  | PLASTIC
  deriving DecidableEq, Repr, Fintype

/-- The string key of a residue category, as it appears as a field key of the
create-form input object (`Object.entries` key, cast `as ResidueType`) and as
the category context passed to the storage gateway. -/
def ResidueType.key : ResidueType → String
  | .GLASS => "GLASS"
  | .METAL => "METAL"
  | .ORGANIC => "ORGANIC"
  | .PAPER => "PAPER"
  | .PLASTIC => "PLASTIC"

/-- The five categories in the fixed iteration order of the input object's
entries.  Modelled from the spec: the input class (`create-form-input.ts`) is
not under `src/`; the spec fixes the order GLASS, METAL, ORGANIC, PAPER,
PLASTIC with one structure per category. -/
def allResidues : List ResidueType :=
  [.GLASS, .METAL, .ORGANIC, .PAPER, .PLASTIC]

/-- Modelled from the spec: `user.entity.ts` is not under `src/`.  Profile
type is a closed enumeration containing RECYCLER, WASTE_GENERATOR and at
least one other, non-uploading, profile type (represented by `OTHER`). -/
inductive ProfileType
  | RECYCLER
  | WASTE_GENERATOR
  | OTHER
  deriving DecidableEq, Repr

/-- Modelled from the spec: user record resolved through the UserDirectory
collaborator (`users.service.ts` is not under `src/`). -/
structure User where
  id : String
  authUserId : String
  profileType : ProfileType
  email : String
  deriving DecidableEq, Repr

/-- Form row (`form.entity.ts` + Prisma defaults): five per-category
quantities default to zero at creation, the admin-authorization flag defaults
to false, and the metadata URL is unset until metadata publication.
Creation timestamp is irrelevant to the verified properties and omitted. -/
structure Form where
  id : String
  userId : String
  walletAddress : Option String
  isFormAuthorizedByAdmin : Bool
  formMetadataUrl : Option String
  glassKgs : ℚ
  metalKgs : ℚ
  organicKgs : ℚ
  paperKgs : ℚ
  plasticKgs : ℚ
  deriving DecidableEq, Repr

/-- Document row (`document.entity.ts`): one residue category's declared
amount plus optional video file key and list of invoice file keys, owned by a
form.  Row identity and timestamp are irrelevant to the verified properties
and omitted. -/
structure Document where
  formId : String
  residueType : ResidueType
  amount : ℚ
  videoFileName : Option String
  invoicesFileName : List String
  deriving DecidableEq, Repr

/-- Result of `S3Service.createPreSignedObjectUrl`: a storage-assigned object
key and a time-limited upload URL (spec collaborator contract; the service
source is not under `src/`). -/
structure S3Result where
  fileName : String
  createUrl : String
  deriving DecidableEq, Repr

/-- One recorded call to `S3Service.createPreSignedObjectUrl`, with its four
arguments (desired file name, category context, base path, bucket). -/
structure S3Call where
  fileName : String
  context : String
  basePath : String
  bucket : String
  deriving DecidableEq, Repr

/-- The storage gateway, as a deterministic function of the four call
arguments.  Theorems quantify over it. -/
def Gw : Type := String → String → String → String → S3Result

/-- Database + gateway-call-log state threaded through each operation. -/
structure Db where
  users : List User
  forms : List Form
  documents : List Document
  s3Log : List S3Call
  deriving DecidableEq, Repr

/-- Error kinds thrown by the service (`NotFoundException`,
`ForbiddenException`). -/
inductive Err
  | notFound
  | forbidden
  deriving DecidableEq, Repr

/-- JS truthiness of an optional string: `undefined`/`null` and the empty
string are falsy. -/
def jsTruthyStr : Option String → Bool
  | none => false
  | some s => s ≠ ""

/-- JS `a || b` for an optional string with a default: falsy (absent or
empty) falls back to the default. -/
def jsStrOr (s : Option String) (d : String) : String :=
  match s with
  | some v => if v = "" then d else v
  | none => d

/-- Per-category slice of the create-form input.  Modelled from the spec
(`create-form-input.ts` is not under `src/`): amount (required), optional
desired video file name, list of zero-or-more desired invoice file names. -/
structure ResidueProps where
  amount : ℚ
  videoFileName : Option String
  invoicesFileName : List String

/-- The create-form input: uploader auth identity, optional wallet address,
and one `ResidueProps` per residue category. -/
structure CreateFormInput where
  authUserId : String
  walletAddress : Option String
  props : ResidueType → ResidueProps

/-- Modelled from the spec: `UsersService.findUserByAuthUserId`
(UserDirectory.findByAuthIdentity) resolves a user by auth identity,
not-found when absent. -/
def findUserByAuthUserId (users : List User) (authUserId : String) : Option User :=
  users.find? (fun u => u.authUserId == authUserId)

/-- `hasUploadedVideoOrInvoice` (forms.service.ts line 109): true when some
category's entry supplies a truthy video file name or a non-empty invoice
file-name list. -/
def hasUploadedVideoOrInvoice (input : CreateFormInput) : Bool :=
  allResidues.any (fun rt =>
    jsTruthyStr (input.props rt).videoFileName
      || !(input.props rt).invoicesFileName.isEmpty)

/-- The Form row persisted by `prisma.form.create` inside `createForm`: only
`userId` and `walletAddress` are supplied; quantities, the authorization flag
and the metadata URL take their schema defaults. -/
def mkForm (fid : String) (u : User) (walletAddress : Option String) : Form :=
  { id := fid
    userId := u.id
    walletAddress := walletAddress
    isFormAuthorizedByAdmin := false
    formMetadataUrl := none
    glassKgs := 0
    metalKgs := 0
    organicKgs := 0
    paperKgs := 0
    plasticKgs := 0 }

/-- The gateway call made for a category's video evidence, when the supplied
video file name is truthy (forms.service.ts lines 149-158). -/
def videoCall (gw : Gw) (rt : ResidueType) (props : ResidueProps) : Option S3Result :=
  if jsTruthyStr props.videoFileName then
    some (gw (props.videoFileName.getD "") rt.key "" "")
  else none

/-- The Document row persisted for one category (forms.service.ts lines
138-144 and 175-179): the stored video/invoice file names are the
storage-assigned keys returned by the gateway, not the caller's names. -/
def categoryDocument (gw : Gw) (fid : String) (rt : ResidueType)
    (props : ResidueProps) : Document :=
  { formId := fid
    residueType := rt
    amount := props.amount
    videoFileName := (videoCall gw rt props).map S3Result.fileName
    invoicesFileName := props.invoicesFileName.map (fun f => (gw f rt.key "" "").fileName) }

/-- The response record appended for one category (forms.service.ts lines
181-190): invoice upload URLs in input order, the storage-assigned invoice
keys, the video upload URL (empty string when no video), the storage-assigned
video key, and the category. -/
structure CategoryResponse where
  invoicesCreateUrl : List String
  invoicesFileName : List String
  videoCreateUrl : String
  videoFileName : Option String
  residue : ResidueType
  deriving DecidableEq, Repr

def categoryResponse (gw : Gw) (rt : ResidueType) (props : ResidueProps) :
    CategoryResponse :=
  { invoicesCreateUrl := props.invoicesFileName.map (fun f => (gw f rt.key "" "").createUrl)
    invoicesFileName := props.invoicesFileName.map (fun f => (gw f rt.key "" "").fileName)
    videoCreateUrl := ((videoCall gw rt props).map S3Result.createUrl).getD ""
    videoFileName := (videoCall gw rt props).map S3Result.fileName
    residue := rt }

/-- The gateway calls issued for one category, in issue order: the video call
(if any) then one call per invoice file name in list order. -/
def categoryS3Log (rt : ResidueType) (props : ResidueProps) : List S3Call :=
  (if jsTruthyStr props.videoFileName then
    [⟨props.videoFileName.getD "", rt.key, "", ""⟩]
  else []) ++ props.invoicesFileName.map (fun f => (⟨f, rt.key, "", ""⟩ : S3Call))

/-- One iteration of the per-category reduce in `createForm` (forms.service.ts
lines 134-193): dispatch the category's evidence to the gateway, persist its
Document row, and produce its response record. -/
def processCategory (gw : Gw) (fid : String) (rt : ResidueType)
    (props : ResidueProps) (st : Db) : CategoryResponse × Db :=
  (categoryResponse gw rt props,
   { st with
      documents := st.documents ++ [categoryDocument gw fid rt props]
      s3Log := st.s3Log ++ categoryS3Log rt props })

/-- The whole per-category reduce: fold `processCategory` over the five
categories in input-entry order, accumulating response records. -/
def dispatchCategories (gw : Gw) (fid : String) (input : CreateFormInput)
    (st : Db) : List CategoryResponse × Db :=
  allResidues.foldl
    (fun acc rt =>
      let pr := processCategory gw fid rt (input.props rt) acc.2
      (acc.1 ++ [pr.1], pr.2))
    ([], st)

structure CreateFormResponse where
  form : Form
  s3 : List CategoryResponse
  deriving DecidableEq, Repr

/-- `FormsService.createForm` (forms.service.ts lines 102-202).
Resolve the uploader; compute `hasUploadedVideoOrInvoice`; fail `Forbidden`
when evidence is supplied by a profile type other than RECYCLER or
WASTE_GENERATOR (before any persistence); persist the Form row; when evidence
is present, run the per-category dispatch; return the form and the
per-category response records.  `fid` stands for the identity Prisma assigns
to the new Form row. -/
def createForm (gw : Gw) (input : CreateFormInput) (fid : String) (st : Db) :
    Except Err CreateFormResponse × Db :=
  match findUserByAuthUserId st.users input.authUserId with
  | none => (.error .notFound, st)
  | some user =>
    if user.profileType != ProfileType.RECYCLER
        && user.profileType != ProfileType.WASTE_GENERATOR
        && hasUploadedVideoOrInvoice input then
      (.error .forbidden, st)
    else
      let form := mkForm fid user input.walletAddress
      let st1 := { st with forms := st.forms ++ [form] }
      if hasUploadedVideoOrInvoice input then
        let pr := dispatchCategories gw fid input st1
        (.ok { form := form, s3 := pr.1 }, pr.2)
      else
        (.ok { form := form, s3 := [] }, st1)

/-- Whether a form's owning user has the given profile type: the Prisma
relation filter `user: { is: { profileType } }` on a Form's `userId` foreign
key. -/
def formUserHasProfile (users : List User) (f : Form) (p : ProfileType) : Bool :=
  users.any (fun u => u.id == f.userId && u.profileType == p)

/-- `prisma.form.findMany` filtered by the owning user's profile type
(forms.service.ts lines 47-64). -/
def formsWithProfile (st : Db) (p : ProfileType) : List Form :=
  st.forms.filter (fun f => formUserHasProfile st.users f p)

/-- `prisma.document.aggregate` summing `amount` over documents whose
`formId` appears in the given form list (`OR` of per-form `formId` filters;
an empty `OR` list matches no row), null-coalesced to zero
(forms.service.ts lines 67-99). -/
def aggregateDocAmount (st : Db) (forms : List Form) : ℚ :=
  ((st.documents.filter (fun d => forms.any (fun f => f.id == d.formId))).map
    Document.amount).sum

/-- `FormsService.aggregateFormByUserProfile` (forms.service.ts lines
45-100): fetch all forms of RECYCLER users and of WASTE_GENERATOR users, sum
the document amounts over each form set, and return the two labelled sums. -/
def aggregateFormByUserProfile (st : Db) : List (ProfileType × ℚ) :=
  [(ProfileType.RECYCLER, aggregateDocAmount st (formsWithProfile st .RECYCLER)),
   (ProfileType.WASTE_GENERATOR,
     aggregateDocAmount st (formsWithProfile st .WASTE_GENERATOR))]

/-- The claim's reading of the aggregate (stated from the spec's words, to be
compared with the source embedding `aggregateFormByUserProfile`): the sum of
`amount` over all Documents whose form belongs to a user of the given profile
type. -/
def profileDocumentSum (st : Db) (p : ProfileType) : ℚ :=
  ((st.documents.filter (fun d =>
      st.forms.any (fun f => f.id == d.formId && formUserHasProfile st.users f p))).map
    Document.amount).sum

/-- `FormsService.findByFormId` (forms.service.ts lines 25-35):
`prisma.form.findUnique` by id, `NotFound` when absent. -/
def findByFormId (st : Db) (fid : String) : Except Err Form :=
  match st.forms.find? (fun f => f.id == fid) with
  | none => .error .notFound
  | some f => .ok f

/-- `prisma.form.update` setting `isFormAuthorizedByAdmin` on the form with
the given id. -/
def updateFormAuth (st : Db) (fid : String) (b : Bool) : Db :=
  { st with
      forms := st.forms.map (fun f =>
        if f.id == fid then { f with isFormAuthorizedByAdmin := b } else f) }

/-- `FormsService.authorizeForm` (forms.service.ts lines 212-225): look up
the form (`NotFound` when absent, leaving state unchanged), then update only
its admin-authorization flag; Prisma returns the updated row. -/
def authorizeForm (st : Db) (fid : String) (b : Bool) : Except Err Form × Db :=
  match findByFormId st fid with
  | .error e => (.error e, st)
  | .ok form =>
      (.ok { form with isFormAuthorizedByAdmin := b }, updateFormAuth st form.id b)

/-- `FormsService.createOnPublicObject` (forms.service.ts lines 227-238):
request a pre-signed URL in the fixed public bucket under the given base
path, with an empty category context, and return only the upload URL. -/
def createOnPublicObject (gw : Gw) (fileName basePath : String) (st : Db) :
    String × Db :=
  ((gw fileName "" basePath "detrash-public").createUrl,
   { st with s3Log := st.s3Log ++ [⟨fileName, "", basePath, "detrash-public"⟩] })

/-- Modelled from the spec: `getResidueTitle` (`src/util/getResidueTitle.ts`
is not under `src/`) renders a residue category as a human-readable title. -/
def getResidueTitle : ResidueType → String
  | .GLASS => "Glass"
  | .METAL => "Metal"
  | .ORGANIC => "Organic"
  | .PAPER => "Paper"
  | .PLASTIC => "Plastic"

/-- Modelled from the spec: `UsersService.findUserByUserId`
(UserDirectory.findByUserId) resolves a user by internal identity, not-found
when absent. -/
def findUserByUserId (users : List User) (uid : String) : Option User :=
  users.find? (fun u => u.id == uid)

/-- Modelled from the spec: `DocumentsService.listDocumentsFromForm`
(DocumentCatalog.listForForm) lists the persisted Documents of a form. -/
def listDocumentsFromForm (st : Db) (fid : String) : List Document :=
  st.documents.filter (fun d => d.formId == fid)

/-- One `trait_type` / `value` attribute of the NFT metadata JSON. -/
structure MetadataAttribute where
  trait_type : String
  value : String
  deriving DecidableEq, Repr

/-- `String(residueDocument.amount)`: a document amount rendered as a string
(JS number-to-string, modelled by the rational's canonical rendering). -/
def amountString (q : ℚ) : String :=
  toString q

/-- The attribute list built by `createFormMetadata` (forms.service.ts lines
259-280): seeded with the originating-wallet attribute (`'0x0'` when the
wallet address is absent or empty, via JS `||`) and the audit attribute
(`'Verified'` / `'Not Verified'` from the admin-authorization flag), then one
attribute per Document pairing its category title with its amount as a
string. -/
def residueAttributes (form : Form) (documents : List Document) :
    List MetadataAttribute :=
  documents.foldl
    (fun acc d =>
      acc ++ [⟨getResidueTitle d.residueType ++ " kgs", amountString d.amount⟩])
    [⟨"Originating wallet", jsStrOr form.walletAddress "0x0"⟩,
     ⟨"Audit", if form.isFormAuthorizedByAdmin then "Verified" else "Not Verified"⟩]

/-- Modelled from the JS `URL` builtin: `origin + pathname` of an absolute
URL — everything before the first `?` (query) or `#` (fragment).  The model
assumes the gateway returns a well-formed absolute http(s) URL without
userinfo whose path needs no normalisation, which is the shape of pre-signed
object-storage URLs. -/
def originPlusPathname (url : String) : String :=
  String.mk (url.data.takeWhile (fun c => c != '?' && c != '#'))

/-- Modelled from the JS `URL` builtin: the `origin` of an absolute URL —
the scheme, `://`, and the authority up to the first `/`, `?` or `#`. -/
def urlOrigin (url : String) : String :=
  match url.splitOn "://" with
  | scheme :: rest :: _ =>
      scheme ++ "://" ++ String.mk (rest.data.takeWhile
        (fun c => c != '/' && c != '?' && c != '#'))
  | _ => url

/-- The metadata JSON value (the source serialises it with
`JSON.stringify(_, null, 2)`; the serialisation is modelled structurally). -/
structure MetadataBody where
  attributes : List MetadataAttribute
  description : String
  image : String
  name : String
  deriving DecidableEq, Repr

structure CreateFormMetadataResult where
  createMetadataUrl : String
  body : MetadataBody
  deriving DecidableEq, Repr

/-- `FormsService.createFormMetadata` (forms.service.ts lines 251-311): look
up the form, resolve its owning user and its documents, build the attribute
list, obtain a pre-signed URL for `<formId>.json` under `metadata` in the
public bucket, build the JSON body (image URL from the upload URL's origin),
persist `origin + pathname` of the upload URL onto the form, and return the
unmodified upload URL plus the body. -/
def createFormMetadata (gw : Gw) (st : Db) (fid : String) :
    Except Err CreateFormMetadataResult × Db :=
  match st.forms.find? (fun f => f.id == fid) with
  | none => (.error .notFound, st)
  | some form =>
    match findUserByUserId st.users form.userId with
    | none => (.error .notFound, st)
    | some user =>
      let documents := listDocumentsFromForm st fid
      let attrs := residueAttributes form documents
      let pr := createOnPublicObject gw (form.id ++ ".json") "metadata" st
      let createMetadataUrl := pr.1
      let body : MetadataBody :=
        { attributes := attrs
          description := "RECY Report"
          image := urlOrigin createMetadataUrl ++ "/images/" ++ form.id ++ ".png"
          name := user.email }
      let formMetadataUrl := originPlusPathname createMetadataUrl
      (.ok ⟨createMetadataUrl, body⟩,
       { pr.2 with
          forms := pr.2.forms.map (fun f =>
            if f.id == fid then { f with formMetadataUrl := some formMetadataUrl }
            else f) })

/-! ## Helper lemmas and concrete fixtures -/

/-- Unfolding of the five-category dispatch fold: responses in category
order, one persisted Document per category, and the concatenated gateway-call
log. -/
theorem dispatchCategories_eq (gw : Gw) (fid : String) (input : CreateFormInput)
    (st : Db) :
    dispatchCategories gw fid input st =
      (allResidues.map (fun rt => categoryResponse gw rt (input.props rt)),
       { st with
          documents := st.documents ++
            allResidues.map (fun rt => categoryDocument gw fid rt (input.props rt))
          s3Log := st.s3Log ++
            allResidues.flatMap (fun rt => categoryS3Log rt (input.props rt)) }) := by
  simp [dispatchCategories, allResidues, processCategory, List.append_assoc]

/-- A concrete storage gateway used by witnesses: assigns a key derived from
the requested name and a pre-signed URL carrying a query string. -/
def gwA : Gw := fun n c bp bk =>
  ⟨"key-" ++ c ++ "-" ++ n,
   "https://s3.example.com/" ++ bk ++ "/" ++ bp ++ "/" ++ c ++ n ++ "?sig=abc"⟩

def userRec : User := ⟨"u1", "auth1", .RECYCLER, "rec@example.com"⟩

def userOther : User := ⟨"u2", "auth2", .OTHER, "other@example.com"⟩

def db0 : Db := ⟨[userRec, userOther], [], [], []⟩

def propsEmpty : ResidueProps := ⟨0, none, []⟩

/-- A quantity-only submission (no evidence anywhere) by the non-uploading
profile. -/
def inputQuantityOnly : CreateFormInput :=
  ⟨"auth2", some "0xabc", fun _ => ⟨3, none, []⟩⟩

/-- A submission with one PLASTIC invoice, by the non-uploading profile. -/
def inputEvidenceOther : CreateFormInput :=
  ⟨"auth2", none, fun rt =>
    if rt = .PLASTIC then ⟨10, none, ["invoice1.pdf"]⟩ else propsEmpty⟩

/-! ## C1 -/

/-- **C1**: `createForm` fails `Forbidden` iff evidence is supplied and the
resolved user's profile type is neither RECYCLER nor WASTE_GENERATOR; on any
failure no Form or Document row is persisted (the whole state is unchanged);
and a quantity-only submission never fails `Forbidden`, for any profile
type. -/
theorem createForm_forbidden_iff (gw : Gw) (input : CreateFormInput)
    (fid : String) (st : Db) :
    (∀ u, findUserByAuthUserId st.users input.authUserId = some u →
      ((createForm gw input fid st).1 = .error .forbidden ↔
        hasUploadedVideoOrInvoice input = true ∧
          u.profileType ≠ ProfileType.RECYCLER ∧
          u.profileType ≠ ProfileType.WASTE_GENERATOR)) ∧
    (∀ e, (createForm gw input fid st).1 = .error e →
      (createForm gw input fid st).2 = st) ∧
    (hasUploadedVideoOrInvoice input = false →
      (createForm gw input fid st).1 ≠ .error .forbidden) := by
  refine ⟨?_, ?_, ?_⟩
  · intro u hu
    cases hp : u.profileType <;>
      by_cases he : hasUploadedVideoOrInvoice input = true <;>
        simp [createForm, hu, hp, he]
  · intro e
    cases hu : findUserByAuthUserId st.users input.authUserId with
    | none => intro _; simp [createForm, hu]
    | some u =>
      cases hp : u.profileType <;>
        by_cases he : hasUploadedVideoOrInvoice input = true <;>
          simp [createForm, hu, hp, he]
  · intro he
    cases hu : findUserByAuthUserId st.users input.authUserId with
    | none => simp [createForm, hu]
    | some u => simp [createForm, hu, he]

theorem createForm_forbidden_iff_witness :
    (createForm gwA inputEvidenceOther "f1" db0).1 = .error .forbidden ∧
    (createForm gwA inputEvidenceOther "f1" db0).2 = db0 := by
  have h := createForm_forbidden_iff gwA inputEvidenceOther "f1" db0
  have h1 : (createForm gwA inputEvidenceOther "f1" db0).1 = .error .forbidden :=
    (h.1 userOther (by decide)).mpr ⟨by decide, by decide, by decide⟩
  exact ⟨h1, h.2.1 .forbidden h1⟩

/-! ## C2 -/

/-- **C2**: a submission in which no category supplies a video file name and
every invoice list is empty makes no storage-gateway call, persists no
Document row, returns an empty per-category evidence list, and still persists
the Form: the final state differs from the initial one only by the appended
Form row. -/
theorem createForm_noEvidence (gw : Gw) (input : CreateFormInput) (fid : String)
    (st : Db) (u : User)
    (hu : findUserByAuthUserId st.users input.authUserId = some u)
    (he : hasUploadedVideoOrInvoice input = false) :
    createForm gw input fid st =
      (.ok { form := mkForm fid u input.walletAddress, s3 := [] },
       { st with forms := st.forms ++ [mkForm fid u input.walletAddress] }) := by
  simp [createForm, hu, he]

theorem createForm_noEvidence_witness :
    createForm gwA inputQuantityOnly "f2" db0 =
      (.ok { form := mkForm "f2" userOther (some "0xabc"), s3 := [] },
       { db0 with forms := db0.forms ++ [mkForm "f2" userOther (some "0xabc")] }) :=
  createForm_noEvidence gwA inputQuantityOnly "f2" db0 userOther (by decide) (by decide)

/-- Unfolding of the whole evidence path of `createForm`: when the uploader
resolves, evidence is present and the profile type is RECYCLER or
WASTE_GENERATOR, the call succeeds, appends the Form row, appends one
Document row per category, logs the per-category gateway calls, and returns
the per-category response records in category order. -/
theorem createForm_evidence (gw : Gw) (input : CreateFormInput) (fid : String)
    (st : Db) (u : User)
    (hu : findUserByAuthUserId st.users input.authUserId = some u)
    (he : hasUploadedVideoOrInvoice input = true)
    (hp : u.profileType = ProfileType.RECYCLER ∨
          u.profileType = ProfileType.WASTE_GENERATOR) :
    createForm gw input fid st =
      (.ok { form := mkForm fid u input.walletAddress,
             s3 := allResidues.map (fun rt => categoryResponse gw rt (input.props rt)) },
       { st with
          forms := st.forms ++ [mkForm fid u input.walletAddress]
          documents := st.documents ++
            allResidues.map (fun rt => categoryDocument gw fid rt (input.props rt))
          s3Log := st.s3Log ++
            allResidues.flatMap (fun rt => categoryS3Log rt (input.props rt)) }) := by
  rcases hp with hp | hp <;>
    simp [createForm, hu, he, hp, dispatchCategories_eq]

/-- A submission by the RECYCLER user carrying exactly one invoice file name,
`invoice1.pdf`, for category PLASTIC with amount 10, and nothing for the
other categories. -/
def inputEvidenceRec : CreateFormInput :=
  ⟨"auth1", none, fun rt =>
    if rt = .PLASTIC then ⟨10, none, ["invoice1.pdf"]⟩ else propsEmpty⟩

/-! ## C3 -/

/-- **C3**: when evidence is present and the submission succeeds, exactly one
Document row is persisted for each of the five residue categories —
including categories whose structure has zero amount and no evidence. -/
theorem createForm_documents_per_category (gw : Gw) (input : CreateFormInput)
    (fid : String) (st : Db) (u : User)
    (hu : findUserByAuthUserId st.users input.authUserId = some u)
    (he : hasUploadedVideoOrInvoice input = true)
    (hp : u.profileType = ProfileType.RECYCLER ∨
          u.profileType = ProfileType.WASTE_GENERATOR) :
    (createForm gw input fid st).2.documents =
      st.documents ++
        allResidues.map (fun rt => categoryDocument gw fid rt (input.props rt)) ∧
    ∀ rt : ResidueType,
      (((createForm gw input fid st).2.documents.drop st.documents.length).filter
        (fun d => d.residueType == rt)).length = 1 := by
  have h := createForm_evidence gw input fid st u hu he hp
  rw [h]
  refine ⟨rfl, ?_⟩
  intro rt
  rw [List.drop_left]
  cases rt <;>
    simp [allResidues, categoryDocument, List.filter_cons, beq_iff_eq]

theorem createForm_documents_per_category_witness :
    (createForm gwA inputEvidenceRec "f3" db0).2.documents =
      db0.documents ++
        allResidues.map (fun rt => categoryDocument gwA "f3" rt (inputEvidenceRec.props rt)) ∧
    (((createForm gwA inputEvidenceRec "f3" db0).2.documents.drop
        db0.documents.length).filter
      (fun d => d.residueType == ResidueType.GLASS)).length = 1 := by
  have h := createForm_documents_per_category gwA inputEvidenceRec "f3" db0 userRec
    (by decide) (by decide) (Or.inl (by decide))
  exact ⟨h.1, h.2 ResidueType.GLASS⟩

/-! ## C4 -/

/-- **C4**: in every successful submission, every per-category response
record carries exactly one invoice upload URL per input invoice file name of
that category, in the same order: the i-th URL is the gateway's upload URL
for the i-th input name. -/
theorem createForm_invoiceUrl_order (gw : Gw) (input : CreateFormInput)
    (fid : String) (st : Db) (resp : CreateFormResponse)
    (hok : (createForm gw input fid st).1 = .ok resp) :
    ∀ r ∈ resp.s3,
      r.invoicesCreateUrl.length = (input.props r.residue).invoicesFileName.length ∧
      ∀ i (hi : i < r.invoicesCreateUrl.length)
          (hj : i < (input.props r.residue).invoicesFileName.length),
        r.invoicesCreateUrl.get ⟨i, hi⟩ =
          (gw ((input.props r.residue).invoicesFileName.get ⟨i, hj⟩)
            r.residue.key "" "").createUrl := by
  have hshape : resp.s3 = [] ∨
      resp.s3 = allResidues.map (fun rt => categoryResponse gw rt (input.props rt)) := by
    cases hu : findUserByAuthUserId st.users input.authUserId with
    | none => simp [createForm, hu] at hok
    | some u =>
      by_cases hc : (u.profileType != ProfileType.RECYCLER
          && u.profileType != ProfileType.WASTE_GENERATOR
          && hasUploadedVideoOrInvoice input) = true
      · simp [createForm, hu, hc] at hok
      · by_cases he : hasUploadedVideoOrInvoice input = true
        · right
          have hp : u.profileType = ProfileType.RECYCLER ∨
              u.profileType = ProfileType.WASTE_GENERATOR := by
            cases hpt : u.profileType
            · exact Or.inl rfl
            · exact Or.inr rfl
            · simp [hpt, he] at hc
          have hok' : (Except.ok
              { form := mkForm fid u input.walletAddress,
                s3 := allResidues.map
                  (fun rt => categoryResponse gw rt (input.props rt)) } :
                Except Err CreateFormResponse) =
              Except.ok resp := by
            rw [createForm_evidence gw input fid st u hu he hp] at hok
            exact hok
          injection hok' with h
          rw [← h]
        · left
          rw [Bool.not_eq_true] at he
          have hok' : (Except.ok
              { form := mkForm fid u input.walletAddress,
                s3 := ([] : List CategoryResponse) } :
                Except Err CreateFormResponse) = Except.ok resp := by
            rw [createForm_noEvidence gw input fid st u hu he] at hok
            exact hok
          injection hok' with h
          rw [← h]
  intro r hr
  rcases hshape with hs | hs
  · rw [hs] at hr
    cases hr
  · rw [hs] at hr
    rcases List.mem_map.mp hr with ⟨rt, _, rfl⟩
    refine ⟨by simp [categoryResponse], ?_⟩
    intro i hi hj
    simp [categoryResponse, List.get_eq_getElem]

theorem createForm_invoiceUrl_order_witness :
    (categoryResponse gwA ResidueType.PLASTIC
        (inputEvidenceRec.props ResidueType.PLASTIC)).invoicesCreateUrl.length =
      (inputEvidenceRec.props
        (categoryResponse gwA ResidueType.PLASTIC
          (inputEvidenceRec.props ResidueType.PLASTIC)).residue).invoicesFileName.length := by
  have hok : (createForm gwA inputEvidenceRec "f3" db0).1 =
      .ok { form := mkForm "f3" userRec none,
            s3 := allResidues.map
              (fun rt => categoryResponse gwA rt (inputEvidenceRec.props rt)) } := by
    rw [createForm_evidence gwA inputEvidenceRec "f3" db0 userRec (by decide) (by decide)
      (Or.inl (by decide))]
    rfl
  have h := createForm_invoiceUrl_order gwA inputEvidenceRec "f3" db0 _ hok
  exact (h (categoryResponse gwA ResidueType.PLASTIC
    (inputEvidenceRec.props ResidueType.PLASTIC)) (by simp [allResidues])).1

/-! ## C5 -/

/-- The stored video file name is the gateway-assigned key when a truthy
video name was supplied, and absent otherwise. -/
theorem videoCall_map_fileName (gw : Gw) (rt : ResidueType) (props : ResidueProps) :
    (videoCall gw rt props).map S3Result.fileName =
      if jsTruthyStr props.videoFileName then
        some (gw (props.videoFileName.getD "") rt.key "" "").fileName
      else none := by
  unfold videoCall
  by_cases h : jsTruthyStr props.videoFileName = true <;> simp [h]

/-- **C5**: for every submission on the evidence path and every category, the
persisted Document for that category stores the storage-assigned file names
returned by the gateway — for the video (when one was supplied) and for each
invoice in input order — never the caller-supplied input names; in
particular, for any gateway, the submission with exactly one invoice file
name `invoice1.pdf` for PLASTIC (amount 10) persists exactly one PLASTIC
Document whose single invoice file name is the storage-assigned key, and the
response carries exactly one invoice upload URL for PLASTIC — the gateway's
upload URL. -/
theorem createForm_stores_storage_keys (gw : Gw) (input : CreateFormInput)
    (fid : String) (st : Db) (u : User)
    (hu : findUserByAuthUserId st.users input.authUserId = some u)
    (he : hasUploadedVideoOrInvoice input = true)
    (hp : u.profileType = ProfileType.RECYCLER ∨
          u.profileType = ProfileType.WASTE_GENERATOR) :
    (∀ rt : ResidueType,
      (((createForm gw input fid st).2.documents.drop st.documents.length).filter
          (fun d => d.residueType == rt)) =
        [{ formId := fid
           residueType := rt
           amount := (input.props rt).amount
           videoFileName :=
             if jsTruthyStr (input.props rt).videoFileName then
               some (gw ((input.props rt).videoFileName.getD "") rt.key "" "").fileName
             else none
           invoicesFileName := (input.props rt).invoicesFileName.map
             (fun f => (gw f rt.key "" "").fileName) }]) ∧
    ((createForm gw inputEvidenceRec "f5" db0).2.documents.filter
        (fun d => d.residueType == ResidueType.PLASTIC)) =
      [{ formId := "f5", residueType := ResidueType.PLASTIC, amount := 10,
         videoFileName := none,
         invoicesFileName := [(gw "invoice1.pdf" "PLASTIC" "" "").fileName] }] ∧
    ∃ resp, (createForm gw inputEvidenceRec "f5" db0).1 = Except.ok resp ∧
      (resp.s3.filter (fun r => r.residue == ResidueType.PLASTIC)).map
          CategoryResponse.invoicesCreateUrl =
        [[(gw "invoice1.pdf" "PLASTIC" "" "").createUrl]] := by
  refine ⟨?_, ?_, ?_⟩
  · intro rt
    rw [createForm_evidence gw input fid st u hu he hp]
    cases rt <;>
      simp [allResidues, categoryDocument, List.drop_left, List.filter_cons,
        beq_iff_eq, videoCall_map_fileName]
  · have h := createForm_evidence gw inputEvidenceRec "f5" db0 userRec rfl (by decide)
      (Or.inl rfl)
    rw [h]
    simp [allResidues, categoryDocument, videoCall, inputEvidenceRec, propsEmpty,
      List.filter_cons, beq_iff_eq, jsTruthyStr, ResidueType.key, db0]
  · have h := createForm_evidence gw inputEvidenceRec "f5" db0 userRec rfl (by decide)
      (Or.inl rfl)
    refine ⟨{ form := mkForm "f5" userRec none,
              s3 := allResidues.map
                (fun rt => categoryResponse gw rt (inputEvidenceRec.props rt)) },
      ?_, ?_⟩
    · rw [h]
      rfl
    · simp [allResidues, categoryResponse, videoCall, inputEvidenceRec, propsEmpty,
        List.filter_cons, beq_iff_eq, jsTruthyStr, ResidueType.key]

/-- A submission by the RECYCLER user carrying, for GLASS, a video file name
and two invoice file names, exercising both halves of the storage-key
property. -/
def inputVideoRec : CreateFormInput :=
  ⟨"auth1", none, fun rt =>
    if rt = .GLASS then ⟨2, some "vid.mp4", ["inv-a.pdf", "inv-b.pdf"]⟩
    else propsEmpty⟩

theorem createForm_stores_storage_keys_witness :
    (((createForm gwA inputVideoRec "f5v" db0).2.documents.drop
        db0.documents.length).filter
      (fun d => d.residueType == ResidueType.GLASS)) =
      [{ formId := "f5v", residueType := ResidueType.GLASS, amount := 2,
         videoFileName := some "key-GLASS-vid.mp4",
         invoicesFileName := ["key-GLASS-inv-a.pdf", "key-GLASS-inv-b.pdf"] }] := by
  have h := createForm_stores_storage_keys gwA inputVideoRec "f5v" db0 userRec
    (by decide) (by decide) (Or.inl (by decide))
  rw [h.1 ResidueType.GLASS]
  decide

/-! ## C6 -/

/-- `any` over a `filter`: searching the filtered list is searching the
original list for both predicates at once. -/
theorem any_filter_comm {α : Type} (l : List α) (p q : α → Bool) :
    (l.filter q).any p = l.any (fun a => p a && q a) := by
  induction l with
  | nil => rfl
  | cons x xs ih =>
    by_cases hq : q x = true <;>
      simp [List.filter_cons, hq, ih]

/-- Strategy B's two steps collapse into one: summing document amounts over
the profile-filtered form set equals the single filtered sum described by the
spec. -/
theorem aggregateDocAmount_formsWithProfile (st : Db) (p : ProfileType) :
    aggregateDocAmount st (formsWithProfile st p) = profileDocumentSum st p := by
  have hpred : ∀ d ∈ st.documents,
      ((formsWithProfile st p).any (fun f => f.id == d.formId)) =
        st.forms.any (fun f => f.id == d.formId && formUserHasProfile st.users f p) := by
    intro d _
    exact any_filter_comm st.forms _ _
  unfold aggregateDocAmount profileDocumentSum
  rw [List.filter_congr hpred]

/-- **C6**: the aggregate-reporting operation returns, for RECYCLER and for
WASTE_GENERATOR, the sum of `amount` over all Documents whose form belongs to
a user of that profile type, and the summand for a profile type with no
matching forms is exactly 0. -/
theorem aggregateFormByUserProfile_spec (st : Db) :
    aggregateFormByUserProfile st =
      [(ProfileType.RECYCLER, profileDocumentSum st ProfileType.RECYCLER),
       (ProfileType.WASTE_GENERATOR,
         profileDocumentSum st ProfileType.WASTE_GENERATOR)] ∧
    ∀ p : ProfileType, formsWithProfile st p = [] →
      aggregateDocAmount st (formsWithProfile st p) = 0 := by
  constructor
  · unfold aggregateFormByUserProfile
    rw [aggregateDocAmount_formsWithProfile, aggregateDocAmount_formsWithProfile]
  · intro p hp
    rw [hp]
    simp [aggregateDocAmount]

/-- A database with one RECYCLER form whose documents sum to 12.5, and no
WASTE_GENERATOR forms. -/
def db6 : Db :=
  ⟨[userRec, userOther], [mkForm "fr1" userRec none],
   [⟨"fr1", .GLASS, 5, none, []⟩, ⟨"fr1", .PLASTIC, 15/2, none, []⟩], []⟩

theorem aggregateFormByUserProfile_spec_witness :
    aggregateFormByUserProfile db6 =
      [(ProfileType.RECYCLER, profileDocumentSum db6 ProfileType.RECYCLER),
       (ProfileType.WASTE_GENERATOR,
         profileDocumentSum db6 ProfileType.WASTE_GENERATOR)] ∧
    profileDocumentSum db6 ProfileType.RECYCLER = 25/2 ∧
    aggregateDocAmount db6 (formsWithProfile db6 ProfileType.WASTE_GENERATOR) = 0 := by
  have h := aggregateFormByUserProfile_spec db6
  refine ⟨h.1, ?_, h.2 ProfileType.WASTE_GENERATOR (by decide)⟩
  simp [profileDocumentSum, db6, formUserHasProfile, userRec, userOther, mkForm,
    List.filter_cons, List.any_cons]
  norm_num

/-! ## C9 -/

/-- A submission by the RECYCLER user with a negative GLASS amount and a
PLASTIC invoice (so that the evidence path runs and Documents are
persisted). -/
def inputNegAmount : CreateFormInput :=
  ⟨"auth1", none, fun rt =>
    if rt = .GLASS then ⟨-1, none, []⟩
    else if rt = .PLASTIC then ⟨10, none, ["invoice1.pdf"]⟩ else propsEmpty⟩

/-- **C9 counterexample**: the code performs no validation of the input
amounts, so a submission carrying a negative amount persists a Document with
a negative `amount`, contradicting the claim for all possible submission
inputs. -/
theorem createForm_negative_amount_counterexample :
    ∃ d ∈ (createForm gwA inputNegAmount "f9" db0).2.documents, d.amount < 0 := by
  decide

/-- **C9 amended**: for every submission whose per-category input amounts are
all non-negative, every Document row persisted by the submission has a
non-negative stored amount. -/
theorem createForm_amount_nonneg (gw : Gw) (input : CreateFormInput)
    (fid : String) (st : Db)
    (h : ∀ rt : ResidueType, 0 ≤ (input.props rt).amount) :
    ∀ d ∈ (createForm gw input fid st).2.documents.drop st.documents.length,
      0 ≤ d.amount := by
  cases hu : findUserByAuthUserId st.users input.authUserId with
  | none => simp [createForm, hu, List.drop_length]
  | some u =>
    by_cases hc : (u.profileType != ProfileType.RECYCLER
        && u.profileType != ProfileType.WASTE_GENERATOR
        && hasUploadedVideoOrInvoice input) = true
    · simp [createForm, hu, hc, List.drop_length]
    · by_cases he : hasUploadedVideoOrInvoice input = true
      · have hp : u.profileType = ProfileType.RECYCLER ∨
            u.profileType = ProfileType.WASTE_GENERATOR := by
          cases hpt : u.profileType
          · exact Or.inl rfl
          · exact Or.inr rfl
          · simp [hpt, he] at hc
        rw [createForm_evidence gw input fid st u hu he hp]
        simp only [List.drop_left]
        intro d hd
        rcases List.mem_map.mp hd with ⟨rt, _, rfl⟩
        simpa [categoryDocument] using h rt
      · rw [Bool.not_eq_true] at he
        rw [createForm_noEvidence gw input fid st u hu he]
        simp [List.drop_length]

theorem createForm_amount_nonneg_witness :
    0 ≤ (categoryDocument gwA "f3" ResidueType.GLASS
      (inputEvidenceRec.props ResidueType.GLASS)).amount := by
  have h := createForm_amount_nonneg gwA inputEvidenceRec "f3" db0 (by decide)
  exact h _ (by decide)

/-! ## C7 -/

theorem authorizeForm_eq_none (st : Db) (fid : String) (b : Bool)
    (h : st.forms.find? (fun f => f.id == fid) = none) :
    authorizeForm st fid b = (.error .notFound, st) := by
  simp [authorizeForm, findByFormId, h]

theorem authorizeForm_eq_some (st : Db) (fid : String) (b : Bool) (f0 : Form)
    (h : st.forms.find? (fun f => f.id == fid) = some f0) :
    authorizeForm st fid b =
      (.ok { f0 with isFormAuthorizedByAdmin := b }, updateFormAuth st fid b) := by
  have hid : f0.id = fid := by
    have hp := List.find?_some h
    simpa using hp
  simp [authorizeForm, findByFormId, h, hid]

/-- Re-updating the authorization flag overwrites the previous update. -/
theorem updateFormAuth_twice (st : Db) (fid : String) (b1 b2 : Bool) :
    updateFormAuth (updateFormAuth st fid b1) fid b2 = updateFormAuth st fid b2 := by
  unfold updateFormAuth
  congr 1
  rw [List.map_map]
  apply List.map_congr_left
  intro f _
  by_cases hf : (f.id == fid) = true <;> simp [Function.comp, hf]

/-- **C7**: `authorizeForm` fails `NotFound` and leaves the whole state
unchanged when no form has the given identity; otherwise it returns the form
with the flag set and updates only that form's admin-authorization flag,
leaving every other field, every other form, all documents and all users
unchanged; and authorizing with `true` then `false` leaves the flag `false`
and the documents unaltered. -/
theorem authorizeForm_spec (st : Db) (fid : String) (b : Bool) :
    (authorizeForm st fid b).2.documents = st.documents ∧
    (authorizeForm st fid b).2.users = st.users ∧
    ((∀ f ∈ st.forms, f.id ≠ fid) →
      authorizeForm st fid b = (.error .notFound, st)) ∧
    (∀ f0, st.forms.find? (fun f => f.id == fid) = some f0 →
      (authorizeForm st fid b).1 = .ok { f0 with isFormAuthorizedByAdmin := b } ∧
      (authorizeForm st fid b).2.forms =
        st.forms.map (fun f =>
          if f.id == fid then { f with isFormAuthorizedByAdmin := b } else f)) ∧
    ((∃ f ∈ st.forms, f.id = fid) →
      (authorizeForm (authorizeForm st fid true).2 fid false).2 =
        updateFormAuth st fid false ∧
      (authorizeForm (authorizeForm st fid true).2 fid false).2.documents =
        st.documents ∧
      ∀ g ∈ (authorizeForm (authorizeForm st fid true).2 fid false).2.forms,
        g.id = fid → g.isFormAuthorizedByAdmin = false) := by
  refine ⟨?_, ?_, ?_, ?_, ?_⟩
  · cases h : st.forms.find? (fun f => f.id == fid) with
    | none => rw [authorizeForm_eq_none st fid b h]
    | some f0 => rw [authorizeForm_eq_some st fid b f0 h]; rfl
  · cases h : st.forms.find? (fun f => f.id == fid) with
    | none => rw [authorizeForm_eq_none st fid b h]
    | some f0 => rw [authorizeForm_eq_some st fid b f0 h]; rfl
  · intro hall
    apply authorizeForm_eq_none
    rw [List.find?_eq_none]
    intro f hf
    simpa using hall f hf
  · intro f0 h
    rw [authorizeForm_eq_some st fid b f0 h]
    exact ⟨rfl, rfl⟩
  · rintro ⟨f0, hf0, hid⟩
    have hs1 : ∃ g, st.forms.find? (fun f => f.id == fid) = some g := by
      have hsome : (st.forms.find? (fun f => f.id == fid)).isSome := by
        rw [List.find?_isSome]
        exact ⟨f0, hf0, by simpa using hid⟩
      exact Option.isSome_iff_exists.mp hsome
    obtain ⟨g, hg⟩ := hs1
    have hA : (authorizeForm st fid true).2 = updateFormAuth st fid true := by
      rw [authorizeForm_eq_some st fid true g hg]
    have hs2 : ∃ g2, (updateFormAuth st fid true).forms.find?
        (fun f => f.id == fid) = some g2 := by
      have hmem : ({f0 with isFormAuthorizedByAdmin := true} : Form) ∈
          (updateFormAuth st fid true).forms := by
        unfold updateFormAuth
        refine List.mem_map.mpr ⟨f0, hf0, ?_⟩
        simp [hid]
      have hsome : ((updateFormAuth st fid true).forms.find?
          (fun f => f.id == fid)).isSome := by
        rw [List.find?_isSome]
        exact ⟨_, hmem, by simpa using hid⟩
      exact Option.isSome_iff_exists.mp hsome
    obtain ⟨g2, hg2⟩ := hs2
    rw [hA, authorizeForm_eq_some (updateFormAuth st fid true) fid false g2 hg2,
      updateFormAuth_twice]
    refine ⟨rfl, rfl, ?_⟩
    intro g3 hg3 hgid
    rcases List.mem_map.mp hg3 with ⟨f, _, rfl⟩
    by_cases hfi : (f.id == fid) = true
    · simp [hfi]
    · simp only [hfi, if_false, Bool.false_eq_true, ite_false] at hgid ⊢
      exact absurd (beq_iff_eq.mpr hgid) hfi

def formA : Form := mkForm "fa" userRec (some "0xw")

def db7 : Db := ⟨[userRec], [formA], [⟨"fa", .GLASS, 1, none, []⟩], []⟩

theorem authorizeForm_spec_witness :
    (authorizeForm db7 "fa" true).2.documents = db7.documents ∧
    (authorizeForm (authorizeForm db7 "fa" true).2 "fa" false).2 =
      updateFormAuth db7 "fa" false := by
  have h := authorizeForm_spec db7 "fa" true
  exact ⟨h.1, (h.2.2.2.2 ⟨formA, List.mem_singleton.mpr rfl, rfl⟩).1⟩

/-! ## C8 -/

theorem foldl_append_singleton {α β : Type} (l : List α) (init : List β)
    (g : α → β) :
    l.foldl (fun acc d => acc ++ [g d]) init = init ++ l.map g := by
  induction l generalizing init with
  | nil => simp
  | cons x xs ih => simp [ih]

/-- The metadata attribute list is the two seed attributes followed by one
attribute per document. -/
theorem residueAttributes_eq (form : Form) (documents : List Document) :
    residueAttributes form documents =
      [⟨"Originating wallet", jsStrOr form.walletAddress "0x0"⟩,
       ⟨"Audit", if form.isFormAuthorizedByAdmin then "Verified" else "Not Verified"⟩]
      ++ documents.map (fun d =>
          ⟨getResidueTitle d.residueType ++ " kgs", amountString d.amount⟩) := by
  unfold residueAttributes
  exact foldl_append_singleton _ _ _

/-- Unfolding of `createFormMetadata` when the form and its user resolve. -/
theorem createFormMetadata_eq (gw : Gw) (st : Db) (fid : String)
    (form : Form) (user : User)
    (hf : st.forms.find? (fun f => f.id == fid) = some form)
    (hu : findUserByUserId st.users form.userId = some user) :
    createFormMetadata gw st fid =
      (.ok ⟨(gw (form.id ++ ".json") "" "metadata" "detrash-public").createUrl,
        { attributes := residueAttributes form (listDocumentsFromForm st fid)
          description := "RECY Report"
          image := urlOrigin
              (gw (form.id ++ ".json") "" "metadata" "detrash-public").createUrl
            ++ "/images/" ++ form.id ++ ".png"
          name := user.email }⟩,
       { st with
          forms := st.forms.map (fun f =>
            if f.id == fid then
              { f with formMetadataUrl := some (originPlusPathname
                  (gw (form.id ++ ".json") "" "metadata" "detrash-public").createUrl) }
            else f)
          s3Log := st.s3Log ++
            [⟨form.id ++ ".json", "", "metadata", "detrash-public"⟩] }) := by
  simp [createFormMetadata, hf, hu, createOnPublicObject]

/-- **C8**: the metadata JSON body's attribute list is exactly the
originating-wallet attribute and the audit attribute (`Verified` when the
admin-authorization flag is set, else `Not Verified`) followed by one
attribute per Document pairing its human-readable category title with its
amount rendered as a string; its length is `2 + (number of Documents)`. -/
theorem createFormMetadata_attributes (gw : Gw) (st : Db) (fid : String)
    (form : Form) (user : User) (res : CreateFormMetadataResult)
    (hf : st.forms.find? (fun f => f.id == fid) = some form)
    (hu : findUserByUserId st.users form.userId = some user)
    (hr : (createFormMetadata gw st fid).1 = .ok res) :
    res.body.attributes =
      [⟨"Originating wallet", jsStrOr form.walletAddress "0x0"⟩,
       ⟨"Audit", if form.isFormAuthorizedByAdmin then "Verified" else "Not Verified"⟩]
      ++ (listDocumentsFromForm st fid).map
          (fun d => ⟨getResidueTitle d.residueType ++ " kgs", amountString d.amount⟩) ∧
    res.body.attributes.length = 2 + (listDocumentsFromForm st fid).length := by
  rw [createFormMetadata_eq gw st fid form user hf hu] at hr
  injection hr with h
  have h1 : res.body.attributes =
      [⟨"Originating wallet", jsStrOr form.walletAddress "0x0"⟩,
       ⟨"Audit", if form.isFormAuthorizedByAdmin then "Verified" else "Not Verified"⟩]
      ++ (listDocumentsFromForm st fid).map
          (fun d => ⟨getResidueTitle d.residueType ++ " kgs", amountString d.amount⟩) := by
    rw [← h]
    exact residueAttributes_eq form _
  refine ⟨h1, ?_⟩
  rw [h1]
  simp only [List.length_append, List.length_map, List.length_cons, List.length_nil]

/-- The concrete metadata result produced for form `fa` of `db7` under the
witness gateway. -/
def res8 : CreateFormMetadataResult :=
  ⟨(gwA ("fa" ++ ".json") "" "metadata" "detrash-public").createUrl,
   { attributes := residueAttributes formA (listDocumentsFromForm db7 "fa")
     description := "RECY Report"
     image := urlOrigin
         (gwA ("fa" ++ ".json") "" "metadata" "detrash-public").createUrl
       ++ "/images/" ++ "fa" ++ ".png"
     name := userRec.email }⟩

theorem createFormMetadata_attributes_witness :
    res8.body.attributes.length = 2 + (listDocumentsFromForm db7 "fa").length :=
  (createFormMetadata_attributes gwA db7 "fa" formA userRec res8 rfl rfl rfl).2

/-! ## C10 -/

/-- `takeWhile` strictly shortens a list containing an element that fails the
predicate. -/
theorem takeWhile_ne_of_mem_false {α : Type} (p : α → Bool) (l : List α)
    (c : α) (hc : c ∈ l) (hpc : p c = false) : l.takeWhile p ≠ l := by
  induction l with
  | nil => cases hc
  | cons x xs ih =>
    cases hc with
    | head => simp [List.takeWhile_cons, hpc]
    | tail _ hc2 =>
      by_cases hx : p x = true
      · rw [List.takeWhile_cons, if_pos hx]
        intro h
        injection h with h1 h2
        exact ih hc2 h2
      · rw [List.takeWhile_cons, if_neg hx]
        simp

/-- **C10**: the upload URL returned by `createFormMetadata` is the gateway's
pre-signed URL unmodified, while the URL persisted onto the Form is its
`origin + pathname` — the query string is stripped — so whenever the
gateway's URL carries a query string the two differ. -/
theorem createFormMetadata_url (gw : Gw) (st : Db) (fid : String)
    (form : Form) (user : User) (res : CreateFormMetadataResult)
    (hf : st.forms.find? (fun f => f.id == fid) = some form)
    (hu : findUserByUserId st.users form.userId = some user)
    (hr : (createFormMetadata gw st fid).1 = .ok res) :
    res.createMetadataUrl =
      (gw (form.id ++ ".json") "" "metadata" "detrash-public").createUrl ∧
    (∀ g ∈ (createFormMetadata gw st fid).2.forms, g.id = fid →
      g.formMetadataUrl = some (originPlusPathname res.createMetadataUrl)) ∧
    (('?' ∈ res.createMetadataUrl.data) →
      originPlusPathname res.createMetadataUrl ≠ res.createMetadataUrl) := by
  have heq := createFormMetadata_eq gw st fid form user hf hu
  rw [heq] at hr
  injection hr with h
  have hurl : res.createMetadataUrl =
      (gw (form.id ++ ".json") "" "metadata" "detrash-public").createUrl := by
    rw [← h]
  refine ⟨hurl, ?_, ?_⟩
  · rw [heq, hurl]
    intro g hg hgid
    rcases List.mem_map.mp hg with ⟨f, _, rfl⟩
    by_cases hfi : (f.id == fid) = true
    · simp [hfi]
    · simp only [hfi, Bool.false_eq_true, ite_false] at hgid ⊢
      exact absurd (beq_iff_eq.mpr hgid) hfi
  · intro hq hcontra
    have h1 : res.createMetadataUrl.data.takeWhile
        (fun c => c != '?' && c != '#') = res.createMetadataUrl.data := by
      have h2 := congrArg String.data hcontra
      simpa [originPlusPathname] using h2
    exact takeWhile_ne_of_mem_false _ _ '?' hq (by simp) h1

theorem createFormMetadata_url_witness :
    res8.createMetadataUrl =
      (gwA ("fa" ++ ".json") "" "metadata" "detrash-public").createUrl ∧
    originPlusPathname res8.createMetadataUrl ≠ res8.createMetadataUrl := by
  have h := createFormMetadata_url gwA db7 "fa" formA userRec res8 rfl rfl rfl
  exact ⟨h.1, h.2.2 (by decide)⟩
